import Mathlib

/-!
Shallow embedding of the composable-allocators crate (src/: affix.rs, limit.rs,
or.rs, zero.rs, null.rs, lib.rs).

Machine integers (`usize`) are modelled as `Nat`, with explicit `% 2 ^ 64`
where the Rust operation wraps (`AtomicUsize::fetch_sub` / `fetch_add`).
Pointers are modelled as `Nat` byte addresses.  Fallible Rust functions
returning `Option` / `Result` are modelled with `Option` / `Except`.
-/

/-- `usize::MAX` on a 64-bit target. -/
def usizeMax : Nat := 2 ^ 64 - 1

/-- `2 ^ 64`, the modulus of wrapping `usize` arithmetic. -/
def U64 : Nat := 2 ^ 64

/-- `isize::MAX as usize` on a 64-bit target. -/
def isizeMaxN : Nat := 2 ^ 63 - 1

/-- `core::alloc::Layout`: a `(size, align)` pair.  The Rust type keeps the
invariant that `align` is a power of two and `size <= isize::MAX - (align - 1)`;
here the invariant is enforced by the smart constructor `Layout.fromSizeAlign`
and carried as hypotheses of theorems. -/
structure Layout where
  size : Nat
  align : Nat
deriving DecidableEq

/-- `usize::is_power_of_two`: exactly one bit set. -/
def isPow2 (n : Nat) : Bool := n != 0 && n.land (n - 1) == 0

/-- `Layout::max_size_for_align`. -/
def Layout.maxSizeForAlign (align : Nat) : Nat := isizeMaxN - (align - 1)

/-- `Layout::from_size_align`: checks the power-of-two alignment and the size
bound, otherwise errors. -/
def Layout.fromSizeAlign (size align : Nat) : Option Layout :=
  if isPow2 align = true ∧ size ≤ Layout.maxSizeForAlign align then
    some ⟨size, align⟩
  else
    none

/-- `usize::checked_add`. -/
def checkedAdd (a b : Nat) : Option Nat :=
  if a + b ≤ usizeMax then some (a + b) else none

/-- `Layout::padding_needed_for`: bytes to insert after `len` so the next
address is `align`-aligned.  Written with division; for the power-of-two
alignments `Layout` permits this equals the bit-masked formula in std
(`(len + align - 1) & !(align - 1)` minus `len`). -/
def paddingNeededFor (len align : Nat) : Nat :=
  (len + align - 1) / align * align - len

/-- `Layout::extend`: place `next` after `self` with minimal padding, returning
the combined layout and the offset of `next`. -/
def Layout.extend (self next : Layout) : Option (Layout × Nat) :=
  let newAlign := max self.align next.align
  let pad := paddingNeededFor self.size next.align
  match checkedAdd self.size pad with
  | none => none
  | some offset =>
    match checkedAdd offset next.size with
    | none => none
    | some newSize =>
      match Layout.fromSizeAlign newSize newAlign with
      | none => none
      | some l => some (l, offset)

/-- `Layout::pad_to_align`: round the size up to a multiple of the alignment. -/
def Layout.padToAlign (self : Layout) : Layout :=
  ⟨self.size + paddingNeededFor self.size self.align, self.align⟩

/-- `AffixLayout` (affix.rs): offsets of the body and the suffix inside the
combined outer layout. -/
structure AffixLayout where
  body_offset : Nat
  suffix_offset : Nat
  outer : Layout
deriving DecidableEq

/-- `AffixLayout::new::<PrefixT, SuffixT>(body)` (affix.rs lines 24-33), with
the layouts of the two types passed explicitly (`Layout::new::<T>` produces
the type's size/align pair). -/
def AffixLayout.new (pre body suf : Layout) : Option AffixLayout :=
  match Layout.extend pre body with
  | none => none
  | some (outer1, bodyOff) =>
    match Layout.extend outer1 suf with
    | none => none
    | some (outer2, sufOff) =>
      some ⟨bodyOff, sufOff, outer2.padToAlign⟩

/-- `AffixLayout::narrow` (affix.rs lines 36-39): from the outer region's start
address, the returned body slice as `(start address, length)`.  The code passes
`self.suffix_offset` as the slice length to
`NonNull::slice_from_raw_parts`. -/
def AffixLayout.narrow (al : AffixLayout) (outerAddr : Nat) : Nat × Nat :=
  (outerAddr + al.body_offset, al.suffix_offset)

/-- `AffixLayout::broaden` (affix.rs lines 42-48): from a body address, the
`(prefix address, suffix address)` pair via `byte_sub` / `byte_add`. -/
def AffixLayout.broaden (al : AffixLayout) (body : Nat) : Nat × Nat :=
  (body - al.body_offset, body - al.body_offset + al.suffix_offset)

/-- `Affix::deallocate` (affix.rs lines 92-96): recompute the affix layout from
the body layout, broaden to the outer start, delegate to the inner allocator.
`unwrap_unchecked` on a failed layout computation is undefined behaviour,
modelled as `none`. -/
def Affix.deallocate {σ : Type} (pre suf : Layout)
    (innerDealloc : Nat → Layout → σ) (ptr : Nat) (layout : Layout) :
    Option σ :=
  match AffixLayout.new pre layout suf with
  | none => none
  | some al => some (innerDealloc (al.broaden ptr).1 al.outer)

/-- `Affix::owns` (affix.rs lines 103-112): broaden the queried pointer, then
ask the inner allocator about the derived outer start with the outer layout;
`false` when the layout computation fails. -/
def Affix.owns (pre suf : Layout) (innerOwns : Nat → Layout → Bool)
    (ptr : Nat) (layout : Layout) : Bool :=
  match AffixLayout.new pre layout suf with
  | some al => innerOwns (al.broaden ptr).1 al.outer
  | none => false

/-- Result of a `Guard::deallocate` sentinel mismatch (affix.rs lines 140-145):
which of the two `panic!` calls fired. -/
inductive GuardPanic where
  | preMismatch
  | sufMismatch
deriving DecidableEq

/-- Outcome of `Guard::deallocate`: either one of the panics, or delegation. -/
inductive GuardStep (σ : Type) where
  | panicked (why : GuardPanic)
  | delegated (v : σ)
deriving DecidableEq

/-- `Guard::deallocate` (affix.rs lines 135-147): recompute the affix layout
from the body layout (UB, modelled `none`, if that fails), broaden the body
pointer, read the two sentinel values back from memory, panic on the first
mismatch (prefix checked before suffix), otherwise delegate `(body, layout)`
to the wrapped `Affix` combinator's `deallocate`.
`guardPre` / `guardSuf` are `self.prefix` / `self.suffix`; `readPre` /
`readSuf` model `ptr::read` at the given address. -/
def Guard.deallocate {α β σ : Type} [DecidableEq α] [DecidableEq β]
    (pre suf : Layout) (guardPre : α) (guardSuf : β)
    (readPre : Nat → α) (readSuf : Nat → β)
    (innerDealloc : Nat → Layout → σ)
    (body : Nat) (layout : Layout) : Option (GuardStep σ) :=
  match AffixLayout.new pre layout suf with
  | none => none
  | some al =>
    let pq := al.broaden body
    let preVal := readPre pq.1
    let sufVal := readSuf pq.2
    if preVal ≠ guardPre then some (.panicked .preMismatch)
    else if sufVal ≠ guardSuf then some (.panicked .sufMismatch)
    else (Affix.deallocate pre suf innerDealloc body layout).map .delegated

/-- The interface of `allocator_api2::alloc::Allocator` plus the crate's
`Owns` trait (lib.rs lines 42-44), as one record of pure operations.
`ε` is the error type (`AllocError`), `π` the type of returned regions,
`σ` the (abstract) effect of a deallocation. -/
structure AllocOps (ε π σ : Type) where
  allocate : Layout → Except ε π
  allocateZeroed : Layout → Except ε π
  deallocate : Nat → Layout → σ
  grow : Nat → Layout → Layout → Except ε π
  growZeroed : Nat → Layout → Layout → Except ε π
  shrink : Nat → Layout → Layout → Except ε π
  owns : Nat → Layout → Bool

/-- The `Or` combinator (or.rs): try `primary`, fall back to `fallback` on
allocation failure; route `deallocate`/`grow`/`grow_zeroed`/`shrink` by
`primary.owns`; `owns` is the disjunction.  `or_else(|_| ...)` ignores the
primary's error, modelled by the `match`. -/
def orAllocator {ε π σ : Type} (p f : AllocOps ε π σ) : AllocOps ε π σ where
  allocate l :=
    match p.allocate l with
    | .ok v => .ok v
    | .error _ => f.allocate l
  allocateZeroed l :=
    match p.allocateZeroed l with
    | .ok v => .ok v
    | .error _ => f.allocateZeroed l
  deallocate ptr l :=
    if p.owns ptr l then p.deallocate ptr l else f.deallocate ptr l
  grow ptr ol nl :=
    if p.owns ptr ol then p.grow ptr ol nl else f.grow ptr ol nl
  growZeroed ptr ol nl :=
    if p.owns ptr ol then p.growZeroed ptr ol nl else f.growZeroed ptr ol nl
  shrink ptr ol nl :=
    if p.owns ptr ol then p.shrink ptr ol nl else f.shrink ptr ol nl
  owns ptr l := p.owns ptr l || f.owns ptr l

/-- Outcome of one `SizeLimit`/`CountLimit::allocate` call: the budget counter
after the call, whether the inner allocator was invoked, and whether the call
returned `Ok`. -/
structure LimitOutcome where
  budget : Nat
  innerInvoked : Bool
  success : Bool
deriving DecidableEq

/-- `SizeLimit::allocate` (limit.rs lines 15-24):
`fetch_update(|it| it.checked_sub(layout.size()))` — on `Some` commit the
decremented budget and call the inner allocator (whose result `innerOk` is a
parameter); on `None` return `AllocError` leaving the budget untouched. -/
def SizeLimit.allocate (budget size : Nat) (innerOk : Bool) : LimitOutcome :=
  if size ≤ budget then ⟨budget - size, true, innerOk⟩
  else ⟨budget, false, false⟩

/-- `SizeLimit::deallocate` (limit.rs lines 26-29): the new value of the
budget counter after `self.limit.fetch_sub(layout.size(), ...)`, which is
wrapping `usize` subtraction. -/
def SizeLimit.deallocate (budget size : Nat) : Nat :=
  (budget + (U64 - size % U64)) % U64

/-- `CountLimit::allocate` (limit.rs lines 63-70):
`fetch_update(|it| it.checked_sub(1))`. -/
def CountLimit.allocate (budget : Nat) (innerOk : Bool) : LimitOutcome :=
  if 1 ≤ budget then ⟨budget - 1, true, innerOk⟩
  else ⟨budget, false, false⟩

/-- `CountLimit::deallocate` (limit.rs lines 73-76): the new counter value
after `self.limit.fetch_add(1, ...)`, wrapping `usize` addition. -/
def CountLimit.deallocate (budget : Nat) : Nat :=
  (budget + 1) % U64

/-- One operation against a limit combinator: an allocation of a given layout
size (with the inner allocator's verdict) or a deallocation. -/
inductive LimitOp where
  | alloc (size : Nat) (innerOk : Bool)
  | dealloc (size : Nat)

/-- The budget counter of a `SizeLimit` after a sequence of operations. -/
def SizeLimit.run (budget : Nat) (ops : List LimitOp) : Nat :=
  ops.foldl
    (fun b op =>
      match op with
      | .alloc s ok => (SizeLimit.allocate b s ok).budget
      | .dealloc s => SizeLimit.deallocate b s)
    budget

/-- The budget counter of a `CountLimit` after a sequence of operations. -/
def CountLimit.run (budget : Nat) (ops : List LimitOp) : Nat :=
  ops.foldl
    (fun b op =>
      match op with
      | .alloc _ ok => (CountLimit.allocate b ok).budget
      | .dealloc _ => CountLimit.deallocate b)
    budget

/-- Outcome of `Null::deallocate` (null.rs lines 16-18): it panics. -/
inductive NullDealloc where
  | panicked
deriving DecidableEq

/-- `Null::deallocate` (null.rs lines 16-18): unconditional
`panic!("Null allocator should never be asked to deallocate")`. -/
def Null.deallocate (_ptr : Nat) (_layout : Layout) : NullDealloc :=
  .panicked

/-- `Null::allocate` (null.rs lines 12-14): always `Err(AllocError)`. -/
def Null.allocate {ε π : Type} (e : ε) (_layout : Layout) : Except ε π :=
  .error e

/-- `Null::owns` (null.rs lines 21-26): always `false`. -/
def Null.owns (_ptr : Nat) (_layout : Layout) : Bool :=
  false

-- Arithmetic helpers about rounding up to a multiple of the alignment.

theorem le_roundUp (len a : Nat) (ha : 0 < a) :
    len ≤ (len + a - 1) / a * a := by
  have h1 := Nat.div_add_mod (len + a - 1) a
  have h2 := Nat.mod_lt (len + a - 1) ha
  rw [Nat.mul_comm]
  generalize hq : a * ((len + a - 1) / a) = m at h1
  generalize hr : (len + a - 1) % a = r at h1 h2
  omega

theorem roundUp_mod (len a : Nat) : (len + a - 1) / a * a % a = 0 :=
  Nat.mul_mod_left _ _

theorem isPow2_pos {n : Nat} (h : isPow2 n = true) : 0 < n := by
  have h1 : n ≠ 0 := by
    intro h0
    simp [isPow2, h0] at h
  exact Nat.pos_of_ne_zero h1

theorem checkedAdd_some {a b c : Nat} (h : checkedAdd a b = some c) :
    c = a + b := by
  unfold checkedAdd at h
  split at h
  · injection h with h2
    omega
  · exact absurd h (by simp)

theorem fromSizeAlign_some {s a : Nat} {l : Layout}
    (h : Layout.fromSizeAlign s a = some l) :
    l.size = s ∧ l.align = a ∧ isPow2 a = true := by
  unfold Layout.fromSizeAlign at h
  split at h
  · rename_i hc
    cases h
    exact ⟨rfl, rfl, hc.1⟩
  · exact absurd h (by simp)

theorem extend_some_spec {a b l : Layout} {off : Nat}
    (h : Layout.extend a b = some (l, off)) :
    a.size ≤ off ∧ l.size = off + b.size ∧
      l.align = max a.align b.align ∧ isPow2 l.align = true := by
  unfold Layout.extend at h
  simp only at h
  split at h
  · exact absurd h (by simp)
  · rename_i offset hoff
    split at h
    · exact absurd h (by simp)
    · rename_i newSize hsize
      split at h
      · exact absurd h (by simp)
      · rename_i l2 hl
        cases h
        have h1 := checkedAdd_some hoff
        have h2 := checkedAdd_some hsize
        have h3 := fromSizeAlign_some hl
        refine ⟨by omega, by omega, ?_, ?_⟩
        · rw [h3.2.1]
        · rw [h3.2.1]
          exact h3.2.2

theorem padToAlign_spec (l : Layout) (ha : 0 < l.align) :
    l.size ≤ l.padToAlign.size ∧ l.padToAlign.align = l.align ∧
      l.padToAlign.size % l.padToAlign.align = 0 := by
  unfold Layout.padToAlign paddingNeededFor
  refine ⟨by simp, rfl, ?_⟩
  simp only
  have hle := le_roundUp l.size l.align ha
  have : l.size + ((l.size + l.align - 1) / l.align * l.align - l.size)
      = (l.size + l.align - 1) / l.align * l.align := by omega
  rw [this]
  exact roundUp_mod _ _

theorem U64_pos : 0 < U64 := by
  unfold U64
  exact Nat.pos_pow_of_pos 64 (by omega)

theorem sizeLimit_allocate_budget_le (b s : Nat) (ok : Bool) :
    (SizeLimit.allocate b s ok).budget ≤ b := by
  unfold SizeLimit.allocate
  split <;> simp

theorem sizeLimit_deallocate_lt (b s : Nat) : SizeLimit.deallocate b s < U64 :=
  Nat.mod_lt _ U64_pos

theorem countLimit_allocate_budget_le (b : Nat) (ok : Bool) :
    (CountLimit.allocate b ok).budget ≤ b := by
  unfold CountLimit.allocate
  split <;> simp

theorem countLimit_deallocate_lt (b : Nat) : CountLimit.deallocate b < U64 :=
  Nat.mod_lt _ U64_pos

theorem sizeLimit_run_lt (ops : List LimitOp) :
    ∀ b, b < U64 → SizeLimit.run b ops < U64 := by
  induction ops with
  | nil => exact fun b hb => hb
  | cons op rest ih =>
    intro b hb
    cases op with
    | alloc s ok =>
      exact ih _ (Nat.lt_of_le_of_lt (sizeLimit_allocate_budget_le b s ok) hb)
    | dealloc s =>
      exact ih _ (sizeLimit_deallocate_lt b s)

theorem countLimit_run_lt (ops : List LimitOp) :
    ∀ b, b < U64 → CountLimit.run b ops < U64 := by
  induction ops with
  | nil => exact fun b hb => hb
  | cons op rest ih =>
    intro b hb
    cases op with
    | alloc s ok =>
      exact ih _ (Nat.lt_of_le_of_lt (countLimit_allocate_budget_le b ok) hb)
    | dealloc s =>
      exact ih _ (countLimit_deallocate_lt b)

-- Claim theorems.

/-- Claim C1 (code bug): the spec says `SizeLimit::deallocate` adds the
layout's byte size back to the budget, restoring it exactly; the code at
limit.rs line 27 executes `fetch_sub`, so after allocating 4 bytes from a
budget of 10 (leaving 6) a deallocation of the same layout drives the budget
to 2, not back to 10.  `CountLimit::deallocate` (limit.rs line 74) does add
its cost of 1 back, as the spec says. -/
theorem sizeLimit_deallocate_subtracts :
    (SizeLimit.allocate 10 4 true).budget = 6 ∧
    SizeLimit.deallocate 6 4 = 2 ∧
    SizeLimit.deallocate 6 4 ≠ 6 + 4 ∧
    CountLimit.deallocate 6 = 6 + 1 := by
  refine ⟨rfl, by decide, by decide, by decide⟩

/-- Claim C2 (code bug): the spec says `narrow` returns the sub-slice at
`body_offset` of length `suffix_offset - body_offset`; the code at affix.rs
line 38 passes `self.suffix_offset` itself as the slice length.  For prefix
layout (3,1), body (1,1), suffix (1,1) the affix layout is
`body_offset = 3, suffix_offset = 4, outer = (5,1)`, and `narrow` on an outer
region starting at address 100 yields a slice of length 4 (not
`4 - 3 = 1`), whose end 107 even lies past the outer region's end 105. -/
theorem affixLayout_narrow_length_bug :
    AffixLayout.new ⟨3, 1⟩ ⟨1, 1⟩ ⟨1, 1⟩ = some ⟨3, 4, ⟨5, 1⟩⟩ ∧
    AffixLayout.narrow ⟨3, 4, ⟨5, 1⟩⟩ 100 = (103, 4) ∧
    (4 : Nat) ≠ 4 - 3 ∧
    100 + 5 < 103 + 4 := by
  refine ⟨by decide, by decide, by decide, by decide⟩

/-- Claim C3: for every triple whose affix-layout computation succeeds,
`narrow` then `broaden` recovers the outer region's start address as the
prefix pointer and that start plus `suffix_offset` as the suffix pointer. -/
theorem narrow_broaden_roundtrip (pre body suf : Layout) (al : AffixLayout)
    (_h : AffixLayout.new pre body suf = some al) (outerAddr : Nat) :
    al.broaden (al.narrow outerAddr).1 =
      (outerAddr, outerAddr + al.suffix_offset) := by
  simp [AffixLayout.narrow, AffixLayout.broaden]

/-- Witness for C3 at prefix (1,1), body (1,1), suffix (1,1), outer address
100: the recovered pair is (100, 102). -/
theorem narrow_broaden_roundtrip_witness :
    AffixLayout.broaden ⟨1, 2, ⟨3, 1⟩⟩
      (AffixLayout.narrow ⟨1, 2, ⟨3, 1⟩⟩ 100).1 = (100, 102) :=
  narrow_broaden_roundtrip ⟨1, 1⟩ ⟨1, 1⟩ ⟨1, 1⟩ ⟨1, 2, ⟨3, 1⟩⟩ (by decide) 100

/-- Claim C4: when the request's cost (its byte size for `SizeLimit`, 1 for
`CountLimit`) exceeds the remaining budget, `allocate` returns an error, does
not invoke the inner allocator and leaves the counter unchanged; and under any
sequence of operations the counter remains a valid `usize` (being a `Nat`, it
is in particular never negative). -/
theorem limit_allocate_insufficient_budget (budget size : Nat) (innerOk : Bool) :
    (budget < size →
      SizeLimit.allocate budget size innerOk = ⟨budget, false, false⟩) ∧
    (budget < 1 →
      CountLimit.allocate budget innerOk = ⟨budget, false, false⟩) ∧
    (budget < U64 → ∀ ops : List LimitOp,
      SizeLimit.run budget ops < U64 ∧ CountLimit.run budget ops < U64) := by
  refine ⟨?_, ?_, ?_⟩
  · intro h
    unfold SizeLimit.allocate
    rw [if_neg (by omega)]
  · intro h
    unfold CountLimit.allocate
    rw [if_neg (by omega)]
  · intro hb ops
    exact ⟨sizeLimit_run_lt ops budget hb, countLimit_run_lt ops budget hb⟩

/-- Witness for C4: a budget of 3 rejects a 5-byte request untouched, an
exhausted count budget rejects untouched, and a run stays below `2 ^ 64`. -/
theorem limit_allocate_insufficient_budget_witness :
    SizeLimit.allocate 3 5 true = ⟨3, false, false⟩ ∧
    CountLimit.allocate 0 true = ⟨0, false, false⟩ ∧
    SizeLimit.run 3 [.alloc 2 true, .dealloc 2] < U64 :=
  ⟨(limit_allocate_insufficient_budget 3 5 true).1 (by omega),
   (limit_allocate_insufficient_budget 0 5 true).2.1 (by omega),
   ((limit_allocate_insufficient_budget 3 5 true).2.2 (by decide) _).1⟩

/-- Claim C5: through `Guard` with the allocation's layout, deallocation
panics whenever the value read back from the prefix region or from the suffix
region differs from the fixed value written at allocation, and delegates to
the wrapped `Affix` combinator (which forwards the broadened outer start and
outer layout to the inner allocator) when both match. -/
theorem guard_deallocate_spec {α β σ : Type} [DecidableEq α] [DecidableEq β]
    (pre suf : Layout) (guardPre : α) (guardSuf : β)
    (readPre : Nat → α) (readSuf : Nat → β)
    (innerDealloc : Nat → Layout → σ)
    (body : Nat) (layout : Layout) (al : AffixLayout)
    (h : AffixLayout.new pre layout suf = some al) :
    ((readPre (body - al.body_offset) ≠ guardPre ∨
      readSuf (body - al.body_offset + al.suffix_offset) ≠ guardSuf) →
      ∃ w, Guard.deallocate pre suf guardPre guardSuf readPre readSuf
        innerDealloc body layout = some (GuardStep.panicked w)) ∧
    (readPre (body - al.body_offset) = guardPre ∧
      readSuf (body - al.body_offset + al.suffix_offset) = guardSuf →
      Guard.deallocate pre suf guardPre guardSuf readPre readSuf
        innerDealloc body layout =
        some (GuardStep.delegated
          (innerDealloc (body - al.body_offset) al.outer))) := by
  unfold Guard.deallocate Affix.deallocate
  rw [h]
  simp only [AffixLayout.broaden]
  constructor
  · intro hbad
    rcases hbad with hp | hs
    · rw [if_pos hp]
      exact ⟨_, rfl⟩
    · by_cases hp : readPre (body - al.body_offset) ≠ guardPre
      · rw [if_pos hp]
        exact ⟨_, rfl⟩
      · rw [if_neg hp, if_pos hs]
        exact ⟨_, rfl⟩
  · intro hboth
    rw [if_neg (by simp [hboth.1]), if_neg (by simp [hboth.2])]
    rfl

/-- Witness for C5: with sentinel values 5 and 7, a corrupted suffix read (9)
panics, and matching reads delegate to the Affix with the outer start 49. -/
theorem guard_deallocate_spec_witness :
    (∃ w, Guard.deallocate ⟨1, 1⟩ ⟨1, 1⟩ 5 7 (fun _ => 5) (fun _ => 9)
      (fun a _ => a) 50 ⟨1, 1⟩ = some (GuardStep.panicked w)) ∧
    Guard.deallocate ⟨1, 1⟩ ⟨1, 1⟩ 5 7 (fun _ => 5) (fun _ => 7)
      (fun a _ => a) 50 ⟨1, 1⟩ = some (GuardStep.delegated 49) :=
  ⟨(guard_deallocate_spec ⟨1, 1⟩ ⟨1, 1⟩ 5 7 (fun _ => 5) (fun _ => 9)
      (fun a _ => a) 50 ⟨1, 1⟩ ⟨1, 2, ⟨3, 1⟩⟩ (by decide)).1
      (Or.inr (by decide)),
   (guard_deallocate_spec ⟨1, 1⟩ ⟨1, 1⟩ 5 7 (fun _ => 5) (fun _ => 7)
      (fun a _ => a) 50 ⟨1, 1⟩ ⟨1, 2, ⟨3, 1⟩⟩ (by decide)).2 ⟨rfl, rfl⟩⟩

/-- Claim C6: `Or::allocate` and `Or::allocate_zeroed` try the primary first;
a primary success is returned for every fallback (so the fallback is not
consulted), a primary failure makes the result exactly the fallback's result,
and when both fail the reported error is the fallback's. -/
theorem or_allocate_first_success {ε π σ : Type} (p : AllocOps ε π σ)
    (l : Layout) :
    (∀ v : π, p.allocate l = Except.ok v →
      ∀ f : AllocOps ε π σ, (orAllocator p f).allocate l = Except.ok v) ∧
    (∀ e : ε, p.allocate l = Except.error e →
      ∀ f : AllocOps ε π σ, (orAllocator p f).allocate l = f.allocate l) ∧
    (∀ v : π, p.allocateZeroed l = Except.ok v →
      ∀ f : AllocOps ε π σ,
        (orAllocator p f).allocateZeroed l = Except.ok v) ∧
    (∀ e : ε, p.allocateZeroed l = Except.error e →
      ∀ f : AllocOps ε π σ,
        (orAllocator p f).allocateZeroed l = f.allocateZeroed l) ∧
    (∀ e : ε, p.allocate l = Except.error e →
      ∀ f : AllocOps ε π σ, ∀ e2 : ε, f.allocate l = Except.error e2 →
        (orAllocator p f).allocate l = Except.error e2) := by
  refine ⟨?_, ?_, ?_, ?_, ?_⟩
  · intro v hv f
    simp [orAllocator, hv]
  · intro e he f
    simp [orAllocator, he]
  · intro v hv f
    simp [orAllocator, hv]
  · intro e he f
    simp [orAllocator, he]
  · intro e he f e2 he2
    simp [orAllocator, he, he2]

/-- A concrete allocator model that always succeeds and owns everything. -/
def okAlloc : AllocOps Unit Nat Unit where
  allocate _ := .ok 7
  allocateZeroed _ := .ok 8
  deallocate _ _ := ()
  grow _ _ _ := .ok 1
  growZeroed _ _ _ := .ok 2
  shrink _ _ _ := .ok 3
  owns _ _ := true

/-- A concrete allocator model that always fails and owns nothing. -/
def errAlloc : AllocOps Unit Nat Unit where
  allocate _ := .error ()
  allocateZeroed _ := .error ()
  deallocate _ _ := ()
  grow _ _ _ := .error ()
  growZeroed _ _ _ := .error ()
  shrink _ _ _ := .error ()
  owns _ _ := false

/-- Witness for C6 at concrete primary/fallback pairs. -/
theorem or_allocate_first_success_witness :
    (orAllocator okAlloc errAlloc).allocate ⟨1, 1⟩ = Except.ok 7 ∧
    (orAllocator errAlloc okAlloc).allocate ⟨1, 1⟩ = okAlloc.allocate ⟨1, 1⟩ ∧
    (orAllocator errAlloc errAlloc).allocate ⟨1, 1⟩ = Except.error () :=
  ⟨(or_allocate_first_success okAlloc ⟨1, 1⟩).1 7 rfl errAlloc,
   (or_allocate_first_success errAlloc ⟨1, 1⟩).2.1 () rfl okAlloc,
   (or_allocate_first_success errAlloc ⟨1, 1⟩).2.2.2.2 () rfl errAlloc () rfl⟩

/-- Claim C7: `Or` routes `deallocate`, `grow`, `grow_zeroed` and `shrink` to
the primary exactly when `primary.owns(ptr, layout)` is true (the old layout
for the resizing calls) and to the fallback otherwise, and `Or::owns` is the
disjunction of the children's `owns`. -/
theorem or_routing {ε π σ : Type} (p f : AllocOps ε π σ) (ptr : Nat)
    (ol nl : Layout) :
    (p.owns ptr ol = true →
      (orAllocator p f).deallocate ptr ol = p.deallocate ptr ol ∧
      (orAllocator p f).grow ptr ol nl = p.grow ptr ol nl ∧
      (orAllocator p f).growZeroed ptr ol nl = p.growZeroed ptr ol nl ∧
      (orAllocator p f).shrink ptr ol nl = p.shrink ptr ol nl) ∧
    (p.owns ptr ol = false →
      (orAllocator p f).deallocate ptr ol = f.deallocate ptr ol ∧
      (orAllocator p f).grow ptr ol nl = f.grow ptr ol nl ∧
      (orAllocator p f).growZeroed ptr ol nl = f.growZeroed ptr ol nl ∧
      (orAllocator p f).shrink ptr ol nl = f.shrink ptr ol nl) ∧
    (orAllocator p f).owns ptr ol = (p.owns ptr ol || f.owns ptr ol) := by
  refine ⟨?_, ?_, rfl⟩ <;> intro h <;> simp [orAllocator, h]

/-- Witness for C7: routing at concrete owning / non-owning primaries. -/
theorem or_routing_witness :
    (orAllocator okAlloc errAlloc).deallocate 0 ⟨1, 1⟩ =
      okAlloc.deallocate 0 ⟨1, 1⟩ ∧
    (orAllocator errAlloc okAlloc).shrink 0 ⟨1, 1⟩ ⟨2, 1⟩ =
      okAlloc.shrink 0 ⟨1, 1⟩ ⟨2, 1⟩ :=
  ⟨((or_routing okAlloc errAlloc 0 ⟨1, 1⟩ ⟨2, 1⟩).1 rfl).1,
   ((or_routing errAlloc okAlloc 0 ⟨1, 1⟩ ⟨2, 1⟩).2.1 rfl).2.2.2⟩

/-- Claim C8: whenever the affix-layout computation succeeds, the body offset
is at least the prefix size, the suffix offset is at least the body offset
plus the body size, the outer size is at least the suffix offset plus the
suffix size, and the outer size is a multiple of the outer alignment. -/
theorem affixLayout_new_invariants (pre body suf : Layout) (al : AffixLayout)
    (h : AffixLayout.new pre body suf = some al) :
    pre.size ≤ al.body_offset ∧
    al.body_offset + body.size ≤ al.suffix_offset ∧
    al.suffix_offset + suf.size ≤ al.outer.size ∧
    al.outer.size % al.outer.align = 0 := by
  unfold AffixLayout.new at h
  split at h
  · exact absurd h (by simp)
  · rename_i outer1 bodyOff h1
    split at h
    · exact absurd h (by simp)
    · rename_i outer2 sufOff h2
      cases h
      have e1 := extend_some_spec h1
      have e2 := extend_some_spec h2
      have hpos : 0 < outer2.align := isPow2_pos e2.2.2.2
      have hp := padToAlign_spec outer2 hpos
      refine ⟨e1.1, ?_, ?_, ?_⟩
      · calc bodyOff + body.size = outer1.size := e1.2.1.symm
        _ ≤ sufOff := e2.1
      · calc sufOff + suf.size = outer2.size := e2.2.1.symm
        _ ≤ outer2.padToAlign.size := hp.1
      · rw [hp.2.1]
        exact hp.2.2

/-- Witness for C8 at prefix (1,1), body (1,1), suffix (1,1), whose affix
layout is `body_offset = 1, suffix_offset = 2, outer = (3,1)`. -/
theorem affixLayout_new_invariants_witness :
    (1 : Nat) ≤ 1 ∧ 1 + 1 ≤ 2 ∧ 2 + 1 ≤ 3 ∧ 3 % 1 = 0 :=
  affixLayout_new_invariants ⟨1, 1⟩ ⟨1, 1⟩ ⟨1, 1⟩ ⟨1, 2, ⟨3, 1⟩⟩ (by decide)

/-- Claim C9: `Affix::owns` broadens the queried pointer (subtracting
`body_offset`) and asks the inner allocator about the derived outer start
together with the outer layout; when the affix-layout computation fails it
returns `false`. -/
theorem affix_owns_spec (pre suf : Layout) (innerOwns : Nat → Layout → Bool)
    (ptr : Nat) (layout : Layout) :
    (∀ al : AffixLayout, AffixLayout.new pre layout suf = some al →
      Affix.owns pre suf innerOwns ptr layout =
        innerOwns (ptr - al.body_offset) al.outer) ∧
    (AffixLayout.new pre layout suf = none →
      Affix.owns pre suf innerOwns ptr layout = false) := by
  constructor
  · intro al h
    unfold Affix.owns
    rw [h]
    rfl
  · intro h
    unfold Affix.owns
    rw [h]

/-- Witness for C9 at prefix/suffix/body layouts (1,1): the query about
pointer 5 is forwarded as the query about 5 - 1 with the outer layout. -/
theorem affix_owns_spec_witness :
    Affix.owns ⟨1, 1⟩ ⟨1, 1⟩ (fun _ _ => true) 5 ⟨1, 1⟩ =
      (fun _ _ => true) (5 - 1) (Layout.mk 3 1) :=
  (affix_owns_spec ⟨1, 1⟩ ⟨1, 1⟩ (fun _ _ => true) 5 ⟨1, 1⟩).1
    ⟨1, 2, ⟨3, 1⟩⟩ (by decide)

/-- Claim C10: `Null::deallocate` panics unconditionally, for every pointer
and layout. -/
theorem null_deallocate_panics (ptr : Nat) (layout : Layout) :
    Null.deallocate ptr layout = NullDealloc.panicked :=
  rfl
